import Mathlib

/-!
Shallow embedding of `pkg/vex/vex.go` (wolfictl's VEX document generation).

Go maps (`build.Secfixes`, `build.Advisories`) are modelled as association
lists; `time.Time` as `Nat`; `[]byte` payloads as `String`; Go's
`(value, error)` returns as `Except String` (or an explicit
`Option × Option` pair where the nil-ness of both results matters).

External collaborators (the SHA-256 hash, YAML marshalling, the purl
parser, the go-vex statement sort and the vexctl merge routine) are not
code of this repository; they are taken as parameters of the embedding,
except the statement sort which is modelled from the spec's contract.
-/

namespace Wolfictl

/-- go-vex `vex.Status` (a string enum in Go; the four documented values). -/
inductive Status where
  | not_affected
  | affected
  | fixed
  | under_investigation
deriving DecidableEq, Repr

/-- go-vex `vex.Statement`: one claim about one vulnerability.
`Timestamp *time.Time` becomes `Option Nat`; the Go zero values of the
string fields are `""` and of the pointer field `none`. -/
structure Statement where
  Vulnerability : String
  StStatus : Status
  Justification : String := ""
  ActionStatement : String := ""
  ImpactStatement : String := ""
  Products : List String := []
  Timestamp : Option Nat := none
deriving DecidableEq, Repr

/-- melange `build.AdvisoryContent`. -/
structure AdvisoryContent where
  ACStatus : Status
  Justification : String
  ActionStatement : String
  ImpactStatement : String
  Timestamp : Nat
deriving DecidableEq, Repr

/-- melange `build.Secfixes`: map packageVersion → vulnerability IDs. -/
abbrev Secfixes := List (String × List String)

/-- melange `build.Advisories`: map vulnerability ID → advisory records. -/
abbrev Advisories := List (String × List AdvisoryContent)

/-- The slice of melange `build.Configuration` that `vex.go` reads. -/
structure Configuration where
  Secfixes : Secfixes
  Advisories : Advisories
deriving DecidableEq, Repr

/-- `vex.Config` from `pkg/vex/vex.go`. -/
structure Config where
  Distro : String
  Author : String
  AuthorRole : String
deriving DecidableEq, Repr

/-- `determineStatus` (vex.go:169-175). -/
def determineStatus (packageVersion : String) : Status :=
  if packageVersion = "0" then Status.not_affected else Status.fixed

/-- `statementFromSecfixesItem` (vex.go:159-167): unset fields keep the Go
zero values (`""` strings, nil timestamp). -/
def statementFromSecfixesItem (pkgVersion vulnerability : String)
    (purls : List String) : Statement :=
  { Vulnerability := vulnerability
    StStatus := determineStatus pkgVersion
    Justification := ""
    ActionStatement := ""
    ImpactStatement := ""
    Products := purls
    Timestamp := none }

/-- `statementsFromSecfixes` (vex.go:147-157): the nested range loop over
the map, modelled over the association list. -/
def statementsFromSecfixes (secfixes : Secfixes) (purls : List String) :
    List Statement :=
  secfixes.flatMap fun p =>
    p.2.map fun v => statementFromSecfixesItem p.1 v purls

/-- `statementFromAdvisoryContent` (vex.go:133-145). -/
def statementFromAdvisoryContent (content : AdvisoryContent)
    (vulnerability : String) (purls : List String) : Statement :=
  { Vulnerability := vulnerability
    StStatus := content.ACStatus
    Justification := content.Justification
    ActionStatement := content.ActionStatement
    ImpactStatement := content.ImpactStatement
    Products := purls
    Timestamp := some content.Timestamp }

/-- `statementsFromAdvisories` (vex.go:121-131). -/
def statementsFromAdvisories (advisories : Advisories) (purls : List String) :
    List Statement :=
  advisories.flatMap fun p =>
    p.2.map fun c => statementFromAdvisoryContent c p.1 purls

/-- Strict lexicographic comparison of character lists by code point
(the byte order Go uses on UTF-8 strings, restricted here to the ASCII
payloads the program compares). -/
def lexLt : List Char → List Char → Bool
  | [], [] => false
  | [], _ :: _ => true
  | _ :: _, [] => false
  | a :: as, b :: bs =>
    if a.toNat < b.toNat then true
    else if b.toNat < a.toNat then false
    else lexLt as bs

/-- Non-strict lexicographic comparison of character lists. -/
def lexLe : List Char → List Char → Bool
  | [], _ => true
  | _ :: _, [] => false
  | a :: as, b :: bs =>
    if a.toNat < b.toNat then true
    else if b.toNat < a.toNat then false
    else lexLe as bs

/-- Go's `<=` on strings (bytewise lexicographic), as a proposition. -/
def strLe (a b : String) : Prop := lexLe a.data b.data = true

instance strLe.decidable : DecidableRel strLe := fun a b =>
  instDecidableEqBool (lexLe a.data b.data) true

/-- Modelled from the spec: the sort key fallback — a statement lacking its
own timestamp is ordered by the document-level timestamp. -/
def effectiveTimestamp (documentTimestamp : Nat) (s : Statement) : Nat :=
  s.Timestamp.getD documentTimestamp

/-- Modelled from the spec: the external go-vex `vex.SortStatements`
collaborator. The spec fixes only its contract (a stable, total,
deterministic in-place reordering keyed on vulnerability ID and timestamp,
with the document timestamp as fallback); we realise it as a stable
insertion sort on that key. -/
def SortStatements (stmts : List Statement) (documentTimestamp : Nat) :
    List Statement :=
  List.insertionSort
    (fun a b => lexLt a.Vulnerability.data b.Vulnerability.data = true ∨
      (a.Vulnerability = b.Vulnerability ∧
        effectiveTimestamp documentTimestamp a ≤
          effectiveTimestamp documentTimestamp b))
    stmts

/-- `statementsFromConfiguration` (vex.go:94-119): build both statement
sets, drop secfixes statements whose vulnerability has a `not_affected`
advisory statement, append the advisory statements, sort. -/
def statementsFromConfiguration (cfg : Configuration)
    (documentTimestamp : Nat) (purls : List String) : List Statement :=
  let secfixesStatements := statementsFromSecfixes cfg.Secfixes purls
  let advisoriesStatements := statementsFromAdvisories cfg.Advisories purls
  let notAffectedVulns :=
    (advisoriesStatements.filter
      (fun s => decide (s.StStatus = Status.not_affected))).map
      (fun s => s.Vulnerability)
  let statements :=
    secfixesStatements.filter
      (fun s => !(notAffectedVulns.contains s.Vulnerability))
  SortStatements (statements ++ advisoriesStatements) documentTimestamp

section DocumentID

-- External collaborators taken as parameters of the embedding:
-- `sha256hex` is the lowercase-hex SHA-256 of a byte string
-- (`crypto/sha256` + `%x`); `yamlMarshal` is `yaml.Marshal` on a
-- configuration, which can fail.
variable (sha256hex : String → String)
variable (yamlMarshal : Configuration → Except String String)

/-- The per-configuration loop of `generateDocumentID` (vex.go:180-191):
marshal each configuration, abort on the first error, hash each
serialization. (The Go in-memory `h.Write` error branch is dead code:
`hash.Hash` writers never fail.) -/
def marshalHashes : List Configuration → Except String (List String)
  | [] => Except.ok []
  | c :: rest =>
    match yamlMarshal c with
    | Except.error e =>
        Except.error ("marshaling melange configuration: " ++ e)
    | Except.ok data =>
        match marshalHashes rest with
        | Except.error e => Except.error e
        | Except.ok hs => Except.ok (sha256hex data :: hs)

/-- `sort.Strings` (vex.go:193): lexicographic string sort. -/
def sortStrings (l : List String) : List String :=
  List.insertionSort strLe l

/-- `generateDocumentID` (vex.go:179-201). -/
def generateDocumentID (configs : List Configuration) :
    Except String String :=
  match marshalHashes sha256hex yamlMarshal configs with
  | Except.error e => Except.error e
  | Except.ok hashes =>
      Except.ok
        ("vex-" ++ sha256hex (String.intercalate ":" (sortStrings hashes)))

end DocumentID

/-- go-vex `vex.VEX` document: the parts `vex.go` touches. -/
structure VEX where
  Timestamp : Nat
  Statements : List Statement
deriving DecidableEq, Repr

/-- `ctl.MergeOptions` fields set by `FromPackageConfiguration`. -/
structure MergeOptions where
  DocumentID : String
  Author : String
  AuthorRole : String
deriving DecidableEq, Repr

section FromPackage

-- External collaborators taken as parameters of the embedding:
-- `packageURLs` is `conf.PackageURLs(distro)` on a melange configuration;
-- `newTimestamp` is the timestamp `vex.New()` stamps on a fresh document;
-- `merge` is `vexctl.Merge` (chainguard.dev/vex/pkg/ctl), which per the
-- spec's interface returns one merged document or an error.
variable (sha256hex : String → String)
variable (yamlMarshal : Configuration → Except String String)
variable (packageURLs : Configuration → String → List String)
variable (newTimestamp : Nat)
variable (merge : MergeOptions → List VEX → Except String VEX)

/-- The per-configuration sub-document construction of
`FromPackageConfiguration` (vex.go:35-40). -/
def subdocs (vexCfg : Config) (buildCfg : List Configuration) : List VEX :=
  buildCfg.map fun conf =>
    { Timestamp := newTimestamp
      Statements :=
        statementsFromConfiguration conf newTimestamp
          (packageURLs conf vexCfg.Distro) }

/-- `FromPackageConfiguration` (vex.go:28-54). The Go signature returns a
`(*vex.VEX, error)` pair; we keep both components so that the nil-ness of
each is visible. -/
def FromPackageConfiguration (vexCfg : Config)
    (buildCfg : List Configuration) : Option VEX × Option String :=
  match generateDocumentID sha256hex yamlMarshal buildCfg with
  | Except.error e => (none, some ("generating doc ID: " ++ e))
  | Except.ok id =>
      match merge
          { DocumentID := id, Author := vexCfg.Author
            AuthorRole := vexCfg.AuthorRole }
          (subdocs packageURLs newTimestamp vexCfg buildCfg) with
      | Except.error e => (none, some ("merging vex documents: " ++ e))
      | Except.ok doc => (some doc, none)

end FromPackage

/-- apko spdx `ExternalRef`: the fields `extractSBOMPurls` reads. The Go
field named `Type` is spelled `RefType` (Lean reserves `Type`). -/
structure ExternalRef where
  RefType : String
  Locator : String
deriving DecidableEq, Repr

/-- apko spdx `Package`: the field `extractSBOMPurls` reads. -/
structure SPDXPackage where
  ExternalRefs : List ExternalRef
deriving DecidableEq, Repr

/-- apko spdx `Document`: the field `extractSBOMPurls` reads. -/
structure SPDXDocument where
  Packages : List SPDXPackage
deriving DecidableEq, Repr

/-- packageurl-go `PackageURL`: the Go field named `Type` is spelled
`PkgType` (Lean reserves `Type`). -/
structure PackageURL where
  PkgType : String
  Namespace : String
  Name : String
  Version : String
deriving DecidableEq, Repr

section ExtractPurls

-- External collaborator taken as a parameter of the embedding:
-- `purlFromString` is `purl.FromString` (packageurl-go).
variable (purlFromString : String → Except String PackageURL)

/-- The inner loop of `extractSBOMPurls` (vex.go:61-74) over one package's
external references: skip non-purl refs, abort on the first parse error,
keep parses whose namespace matches the configured distro. -/
def extractRefPurls (vexCfg : Config) :
    List ExternalRef → Except String (List PackageURL)
  | [] => Except.ok []
  | ref :: rest =>
    if ref.RefType ≠ "purl" then extractRefPurls vexCfg rest
    else
      match purlFromString ref.Locator with
      | Except.error e =>
          Except.error ("parsing purl: " ++ ref.Locator ++ ": " ++ e)
      | Except.ok p =>
          match extractRefPurls vexCfg rest with
          | Except.error e => Except.error e
          | Except.ok ps =>
              Except.ok
                (if p.Namespace = vexCfg.Distro then p :: ps else ps)

/-- The outer loop of `extractSBOMPurls` (vex.go:60-75) over the SBOM's
packages, accumulating in document order. -/
def extractPackagesPurls (vexCfg : Config) :
    List SPDXPackage → Except String (List PackageURL)
  | [] => Except.ok []
  | pkg :: rest =>
    match extractRefPurls purlFromString vexCfg pkg.ExternalRefs with
    | Except.error e => Except.error e
    | Except.ok ps =>
        match extractPackagesPurls vexCfg rest with
        | Except.error e => Except.error e
        | Except.ok qs => Except.ok (ps ++ qs)

/-- `extractSBOMPurls` (vex.go:58-77). -/
def extractSBOMPurls (vexCfg : Config) (sbom : SPDXDocument) :
    Except String (List PackageURL) :=
  extractPackagesPurls purlFromString vexCfg sbom.Packages

end ExtractPurls

/-! ## Helper lemmas -/

theorem sortStatements_perm (l : List Statement) (ts : Nat) :
    (SortStatements l ts).Perm l :=
  List.perm_insertionSort _ l

theorem mem_sortStatements {l : List Statement} {ts : Nat} {s : Statement} :
    s ∈ SortStatements l ts ↔ s ∈ l :=
  (sortStatements_perm l ts).mem_iff

theorem mem_statementsFromSecfixes {sf : Secfixes} {purls : List String}
    {s : Statement} :
    s ∈ statementsFromSecfixes sf purls ↔
      ∃ p ∈ sf, ∃ v ∈ p.2, s = statementFromSecfixesItem p.1 v purls := by
  simp only [statementsFromSecfixes, List.mem_flatMap, List.mem_map]
  constructor
  · rintro ⟨p, hp, v, hv, rfl⟩
    exact ⟨p, hp, v, hv, rfl⟩
  · rintro ⟨p, hp, v, hv, rfl⟩
    exact ⟨p, hp, v, hv, rfl⟩

theorem mem_statementsFromAdvisories {adv : Advisories} {purls : List String}
    {s : Statement} :
    s ∈ statementsFromAdvisories adv purls ↔
      ∃ p ∈ adv, ∃ c ∈ p.2, s = statementFromAdvisoryContent c p.1 purls := by
  simp only [statementsFromAdvisories, List.mem_flatMap, List.mem_map]
  constructor
  · rintro ⟨p, hp, c, hc, rfl⟩
    exact ⟨p, hp, c, hc, rfl⟩
  · rintro ⟨p, hp, c, hc, rfl⟩
    exact ⟨p, hp, c, hc, rfl⟩

theorem timestamp_of_mem_secfixes {sf : Secfixes} {purls : List String}
    {s : Statement} (h : s ∈ statementsFromSecfixes sf purls) :
    s.Timestamp = none := by
  obtain ⟨p, _, v, _, rfl⟩ := mem_statementsFromSecfixes.mp h
  rfl

theorem timestamp_of_mem_advisories {adv : Advisories} {purls : List String}
    {s : Statement} (h : s ∈ statementsFromAdvisories adv purls) :
    ∃ t, s.Timestamp = some t := by
  obtain ⟨p, _, c, _, rfl⟩ := mem_statementsFromAdvisories.mp h
  exact ⟨c.Timestamp, rfl⟩

theorem products_of_mem_secfixes {sf : Secfixes} {purls : List String}
    {s : Statement} (h : s ∈ statementsFromSecfixes sf purls) :
    s.Products = purls := by
  obtain ⟨p, _, v, _, rfl⟩ := mem_statementsFromSecfixes.mp h
  rfl

theorem products_of_mem_advisories {adv : Advisories} {purls : List String}
    {s : Statement} (h : s ∈ statementsFromAdvisories adv purls) :
    s.Products = purls := by
  obtain ⟨p, _, c, _, rfl⟩ := mem_statementsFromAdvisories.mp h
  rfl

/-- The reconciled output is a permutation of: suppressed-filtered secfixes
statements followed by all advisory statements. -/
theorem statementsFromConfiguration_perm (cfg : Configuration) (ts : Nat)
    (purls : List String) :
    (statementsFromConfiguration cfg ts purls).Perm
      ((statementsFromSecfixes cfg.Secfixes purls).filter
        (fun s =>
          !((((statementsFromAdvisories cfg.Advisories purls).filter
            (fun a => decide (a.StStatus = Status.not_affected))).map
              (fun a => a.Vulnerability)).contains s.Vulnerability)) ++
        statementsFromAdvisories cfg.Advisories purls) :=
  List.perm_insertionSort _ _

/-- Membership in the reconciled output, unfolded to the two sources and
the suppression condition. -/
theorem mem_statementsFromConfiguration {cfg : Configuration} {ts : Nat}
    {purls : List String} {s : Statement} :
    s ∈ statementsFromConfiguration cfg ts purls ↔
      (s ∈ statementsFromSecfixes cfg.Secfixes purls ∧
        ∀ a ∈ statementsFromAdvisories cfg.Advisories purls,
          a.StStatus = Status.not_affected →
            a.Vulnerability ≠ s.Vulnerability) ∨
      s ∈ statementsFromAdvisories cfg.Advisories purls := by
  rw [(statementsFromConfiguration_perm cfg ts purls).mem_iff]
  simp only [List.mem_append, List.mem_filter, List.elem_eq_mem,
    Bool.not_eq_true', decide_eq_false_iff_not, List.mem_map,
    decide_eq_true_eq]
  constructor
  · rintro (⟨hs, hns⟩ | ha)
    · refine Or.inl ⟨hs, ?_⟩
      intro a haa hna heq
      exact hns ⟨a, ⟨haa, hna⟩, heq⟩
    · exact Or.inr ha
  · rintro (⟨hs, hns⟩ | ha)
    · refine Or.inl ⟨hs, ?_⟩
      rintro ⟨a, ⟨haa, hna⟩, heq⟩
      exact hns a haa hna heq
    · exact Or.inr ha

/-! ## Claims -/

/-- C3: for every (version, vulnerabilityID) pair in a secfixes map,
`statementsFromSecfixes` emits exactly one statement, whose status is
`not_affected` iff the version string is `"0"` (else `fixed`), with no
justification, action statement or impact statement, and a nil
timestamp. -/
theorem secfixes_statement_characterization (sf : Secfixes)
    (purls : List String) :
    statementsFromSecfixes sf purls =
      sf.flatMap (fun p => p.2.map fun v =>
        { Vulnerability := v
          StStatus :=
            if p.1 = "0" then Status.not_affected else Status.fixed
          Justification := ""
          ActionStatement := ""
          ImpactStatement := ""
          Products := purls
          Timestamp := none }) ∧
    ∀ pkgVersion v,
      (statementFromSecfixesItem pkgVersion v purls).StStatus =
          Status.not_affected ↔ pkgVersion = "0" := by
  constructor
  · rfl
  · intro pv v
    by_cases h : pv = "0" <;>
      simp [statementFromSecfixesItem, determineStatus, h]

/-- One vulnerability key's worth of mapped advisory statements: the
filter keeps all of them when the key matches, none otherwise. -/
theorem length_filter_map_advisoryContent (entries : List AdvisoryContent)
    (vid k : String) (purls : List String) :
    ((entries.map
      (fun c => statementFromAdvisoryContent c vid purls)).filter
        (fun s => s.Vulnerability == k)).length =
      if vid == k then entries.length else 0 := by
  induction entries with
  | nil => simp
  | cons c cs ih =>
      simp only [List.map_cons, List.filter_cons]
      by_cases h : (vid == k) = true
      · simp only [statementFromAdvisoryContent] at *
        simp [h, ih]
      · have h' : (vid == k) = false := by
          simpa using h
        simp only [statementFromAdvisoryContent] at *
        simp [h', ih]

/-- Counting advisory statements for one vulnerability ID: each record
stored under that key contributes one statement. -/
theorem length_filter_statementsFromAdvisories (adv : Advisories)
    (purls : List String) (k : String) :
    ((statementsFromAdvisories adv purls).filter
      (fun s => s.Vulnerability == k)).length =
      ((adv.filter (fun q => q.1 == k)).flatMap (fun q => q.2)).length := by
  induction adv with
  | nil => rfl
  | cons q rest ih =>
      simp only [statementsFromAdvisories] at ih ⊢
      rw [List.flatMap_cons, List.filter_append, List.length_append,
        length_filter_map_advisoryContent, List.filter_cons, ih]
      by_cases hq : (q.1 == k) = true
      · rw [if_pos hq, if_pos hq, List.flatMap_cons, List.length_append]
      · have hq' : (q.1 == k) = false := by
          simpa using hq
        rw [hq']
        simp

/-- C6: for every (vulnerabilityID, record) pair in an advisories map,
`statementsFromAdvisories` emits exactly one statement whose vulnerability
ID is the key and whose status, justification, action statement, impact
statement and timestamp are copied verbatim from the record; a
vulnerability ID with n records yields n statements. -/
theorem advisories_statement_characterization (adv : Advisories)
    (purls : List String) :
    statementsFromAdvisories adv purls =
      adv.flatMap (fun p => p.2.map fun c =>
        { Vulnerability := p.1
          StStatus := c.ACStatus
          Justification := c.Justification
          ActionStatement := c.ActionStatement
          ImpactStatement := c.ImpactStatement
          Products := purls
          Timestamp := some c.Timestamp }) ∧
    ∀ k : String,
      ((statementsFromAdvisories adv purls).filter
        (fun s => s.Vulnerability == k)).length =
        ((adv.filter (fun q => q.1 == k)).flatMap (fun q => q.2)).length :=
  ⟨rfl, length_filter_statementsFromAdvisories adv purls⟩

/-- C2: statements whose vulnerability has a `not_affected` advisory
statement are suppressed from the secfixes side (regardless of their own
status), all other secfixes statements survive, and every advisory
statement is retained unconditionally. -/
theorem suppression_correctness (cfg : Configuration) (ts : Nat)
    (purls : List String) :
    (∀ s ∈ statementsFromSecfixes cfg.Secfixes purls,
      (∃ a ∈ statementsFromAdvisories cfg.Advisories purls,
        a.StStatus = Status.not_affected ∧
          a.Vulnerability = s.Vulnerability) →
      s ∉ statementsFromConfiguration cfg ts purls) ∧
    (∀ s ∈ statementsFromSecfixes cfg.Secfixes purls,
      (¬ ∃ a ∈ statementsFromAdvisories cfg.Advisories purls,
        a.StStatus = Status.not_affected ∧
          a.Vulnerability = s.Vulnerability) →
      s ∈ statementsFromConfiguration cfg ts purls) ∧
    (∀ s ∈ statementsFromAdvisories cfg.Advisories purls,
      s ∈ statementsFromConfiguration cfg ts purls) := by
  refine ⟨?_, ?_, ?_⟩
  · rintro s hs ⟨a, haa, hna, heq⟩ hmem
    rcases mem_statementsFromConfiguration.mp hmem with ⟨_, hforall⟩ | hadv
    · exact hforall a haa hna heq
    · obtain ⟨t, ht⟩ := timestamp_of_mem_advisories hadv
      rw [timestamp_of_mem_secfixes hs] at ht
      exact Option.noConfusion ht
  · intro s hs hnone
    exact mem_statementsFromConfiguration.mpr
      (Or.inl ⟨hs, fun a haa hna heq => hnone ⟨a, haa, hna, heq⟩⟩)
  · intro s hs
    exact mem_statementsFromConfiguration.mpr (Or.inr hs)

/-- Witness for C2 on a concrete package: the legacy CVE-A statement is
suppressed by a `not_affected` advisory, the legacy CVE-B statement
survives, and the advisory statement itself is retained. -/
theorem suppression_correctness_witness :
    statementFromSecfixesItem "0" "CVE-A" ["p"] ∉
      statementsFromConfiguration
        ⟨[("0", ["CVE-A"]), ("1.0", ["CVE-B"])],
          [("CVE-A", [⟨Status.not_affected, "j", "", "", 5⟩])]⟩ 3 ["p"] ∧
    statementFromSecfixesItem "1.0" "CVE-B" ["p"] ∈
      statementsFromConfiguration
        ⟨[("0", ["CVE-A"]), ("1.0", ["CVE-B"])],
          [("CVE-A", [⟨Status.not_affected, "j", "", "", 5⟩])]⟩ 3 ["p"] ∧
    statementFromAdvisoryContent ⟨Status.not_affected, "j", "", "", 5⟩
        "CVE-A" ["p"] ∈
      statementsFromConfiguration
        ⟨[("0", ["CVE-A"]), ("1.0", ["CVE-B"])],
          [("CVE-A", [⟨Status.not_affected, "j", "", "", 5⟩])]⟩ 3 ["p"] :=
  ⟨(suppression_correctness
      ⟨[("0", ["CVE-A"]), ("1.0", ["CVE-B"])],
        [("CVE-A", [⟨Status.not_affected, "j", "", "", 5⟩])]⟩ 3 ["p"]).1
      _ (by decide) (by decide),
    (suppression_correctness
      ⟨[("0", ["CVE-A"]), ("1.0", ["CVE-B"])],
        [("CVE-A", [⟨Status.not_affected, "j", "", "", 5⟩])]⟩ 3 ["p"]).2.1
      _ (by decide) (by decide),
    (suppression_correctness
      ⟨[("0", ["CVE-A"]), ("1.0", ["CVE-B"])],
        [("CVE-A", [⟨Status.not_affected, "j", "", "", 5⟩])]⟩ 3 ["p"]).2.2
      _ (by decide)⟩

/-- C7: every statement in the reconciled output carries the full product
list; in particular when the product list is non-empty no output statement
has an empty product list. -/
theorem statements_products_complete (cfg : Configuration) (ts : Nat)
    (purls : List String) :
    (∀ s ∈ statementsFromConfiguration cfg ts purls,
      s.Products = purls) ∧
    (purls ≠ [] →
      ∀ s ∈ statementsFromConfiguration cfg ts purls, s.Products ≠ []) := by
  have h : ∀ s ∈ statementsFromConfiguration cfg ts purls,
      s.Products = purls := by
    intro s hs
    rcases mem_statementsFromConfiguration.mp hs with ⟨h, _⟩ | h
    · exact products_of_mem_secfixes h
    · exact products_of_mem_advisories h
  exact ⟨h, fun hne s hs => (h s hs).symm ▸ hne⟩

/-- Witness for C7 on a concrete package with one secfixes statement and
one advisory statement. -/
theorem statements_products_complete_witness :
    (statementFromSecfixesItem "1.0" "CVE-X" ["p", "q"]).Products =
        ["p", "q"] ∧
      (statementFromSecfixesItem "1.0" "CVE-X" ["p", "q"]).Products ≠ [] :=
  ⟨(statements_products_complete
      ⟨[("1.0", ["CVE-X"])], [("CVE-Y", [⟨Status.fixed, "", "", "", 2⟩])]⟩
      0 ["p", "q"]).1 _ (by decide),
    (statements_products_complete
      ⟨[("1.0", ["CVE-X"])], [("CVE-Y", [⟨Status.fixed, "", "", "", 2⟩])]⟩
      0 ["p", "q"]).2 (by decide) _ (by decide)⟩

/-- C1 counterexample: in Scenario B (secfixes `{"0": ["CVE-1"]}`,
advisories `{"CVE-1": [affected at time 7]}`) the reconciled output has
TWO statements for CVE-1, and the legacy-derived `not_affected` statement
survives — the claim's "exactly one statement" and "does not survive" are
both false on the code, because suppression only triggers on advisory
statements whose status is `not_affected`. -/
theorem scenarioB_claim_false :
    ((statementsFromConfiguration
        ⟨[("0", ["CVE-1"])], [("CVE-1", [⟨Status.affected, "", "", "", 7⟩])]⟩
        3 ["p"]).countP (fun s => s.Vulnerability == "CVE-1")) = 2 ∧
      statementFromSecfixesItem "0" "CVE-1" ["p"] ∈
        statementsFromConfiguration
          ⟨[("0", ["CVE-1"])],
            [("CVE-1", [⟨Status.affected, "", "", "", 7⟩])]⟩ 3 ["p"] := by
  decide

/-- C1 amended: in Scenario B the reconciled output contains exactly two
statements for CVE-1 — the advisory-derived `affected` statement and the
legacy-derived `not_affected` one, which survives because suppression only
applies when some advisory statement has status `not_affected`. -/
theorem scenarioB_reconciled (T ts : Nat) (purls : List String) :
    ((statementsFromConfiguration
        ⟨[("0", ["CVE-1"])], [("CVE-1", [⟨Status.affected, "", "", "", T⟩])]⟩
        ts purls).countP (fun s => s.Vulnerability == "CVE-1")) = 2 ∧
    statementFromSecfixesItem "0" "CVE-1" purls ∈
      statementsFromConfiguration
        ⟨[("0", ["CVE-1"])], [("CVE-1", [⟨Status.affected, "", "", "", T⟩])]⟩
        ts purls ∧
    statementFromAdvisoryContent ⟨Status.affected, "", "", "", T⟩ "CVE-1"
        purls ∈
      statementsFromConfiguration
        ⟨[("0", ["CVE-1"])], [("CVE-1", [⟨Status.affected, "", "", "", T⟩])]⟩
        ts purls := by
  refine ⟨?_, ?_, ?_⟩
  · rw [(statementsFromConfiguration_perm _ _ _).countP_eq]
    simp [statementsFromSecfixes, statementsFromAdvisories,
      statementFromSecfixesItem, statementFromAdvisoryContent,
      determineStatus, List.countP_cons]
  · refine mem_statementsFromConfiguration.mpr (Or.inl ⟨?_, ?_⟩)
    · simp [statementsFromSecfixes]
    · intro a ha hna
      simp [statementsFromAdvisories, statementFromAdvisoryContent] at ha
      rw [ha] at hna
      simp [statementFromAdvisoryContent] at hna
  · refine mem_statementsFromConfiguration.mpr (Or.inr ?_)
    simp [statementsFromAdvisories]

/-- C10: on the empty batch `generateDocumentID` succeeds and returns
`"vex-"` followed by the hash of the empty string (the join of zero
per-configuration hashes). -/
theorem generateDocumentID_empty_batch (sha256hex : String → String)
    (yamlMarshal : Configuration → Except String String) :
    generateDocumentID sha256hex yamlMarshal [] =
      Except.ok ("vex-" ++ sha256hex "") := rfl

/-! ## Lexicographic string order: totality, transitivity, antisymmetry -/

theorem lexLe_total : ∀ as bs : List Char,
    lexLe as bs = true ∨ lexLe bs as = true
  | [], _ => Or.inl rfl
  | _ :: _, [] => Or.inr rfl
  | a :: as, b :: bs => by
      rcases Nat.lt_trichotomy a.toNat b.toNat with h | h | h
      · left
        simp [lexLe, h]
      · have h1 : ¬ a.toNat < b.toNat := by omega
        have h2 : ¬ b.toNat < a.toNat := by omega
        rcases lexLe_total as bs with hh | hh
        · left
          simp [lexLe, h1, h2, hh]
        · right
          simp [lexLe, h1, h2, hh]
      · right
        simp [lexLe, h]

theorem lexLe_trans : ∀ as bs cs : List Char,
    lexLe as bs = true → lexLe bs cs = true → lexLe as cs = true
  | [], _, _, _, _ => rfl
  | _ :: _, [], _, h1, _ => by simp [lexLe] at h1
  | _ :: _, _ :: _, [], _, h2 => by simp [lexLe] at h2
  | a :: as, b :: bs, c :: cs, h1, h2 => by
      by_cases hba : b.toNat < a.toNat
      · simp [lexLe, hba, Nat.lt_asymm hba] at h1
      · by_cases hcb : c.toNat < b.toNat
        · simp [lexLe, hcb, Nat.lt_asymm hcb] at h2
        · by_cases hac : a.toNat < c.toNat
          · simp [lexLe, hac]
          · have hab : ¬ a.toNat < b.toNat := by omega
            have hbc : ¬ b.toNat < c.toNat := by omega
            have hca : ¬ c.toNat < a.toNat := by omega
            have h1' : lexLe as bs = true := by
              simpa [lexLe, hab, hba] using h1
            have h2' : lexLe bs cs = true := by
              simpa [lexLe, hbc, hcb] using h2
            simpa [lexLe, hac, hca] using lexLe_trans as bs cs h1' h2'

theorem lexLe_antisymm : ∀ as bs : List Char,
    lexLe as bs = true → lexLe bs as = true → as = bs
  | [], [], _, _ => rfl
  | [], _ :: _, _, h2 => by simp [lexLe] at h2
  | _ :: _, [], h1, _ => by simp [lexLe] at h1
  | a :: as, b :: bs, h1, h2 => by
      by_cases hab : a.toNat < b.toNat
      · simp [lexLe, hab, Nat.lt_asymm hab] at h2
      · by_cases hba : b.toNat < a.toNat
        · simp [lexLe, hab, hba] at h1
        · have hn : a.toNat = b.toNat := by omega
          have hc : a = b := by
            have := congrArg Char.ofNat hn
            rwa [Char.ofNat_toNat, Char.ofNat_toNat] at this
          have h1' : lexLe as bs = true := by
            simpa [lexLe, hab, hba] using h1
          have h2' : lexLe bs as = true := by
            simpa [lexLe, hab, hba] using h2
          rw [hc, lexLe_antisymm as bs h1' h2']

/-- Sorted output of `sortStrings` depends only on the multiset of
inputs: the Go code's sorted hash list is order-independent. -/
theorem sortStrings_eq_of_perm {l l' : List String} (h : l.Perm l') :
    sortStrings l = sortStrings l' := by
  haveI : IsTotal String strLe := ⟨fun a b => lexLe_total a.data b.data⟩
  haveI : IsTrans String strLe :=
    ⟨fun a b c => lexLe_trans a.data b.data c.data⟩
  haveI : IsAntisymm String strLe :=
    ⟨fun a b h1 h2 => String.ext (lexLe_antisymm a.data b.data h1 h2)⟩
  exact List.eq_of_perm_of_sorted
    ((List.perm_insertionSort _ _).trans
      (h.trans (List.perm_insertionSort _ _).symm))
    (List.sorted_insertionSort _ _) (List.sorted_insertionSort _ _)

/-! ## marshalHashes lemmas -/

theorem marshalHashes_ok_of_forall (sha256hex : String → String)
    (yamlMarshal : Configuration → Except String String)
    (serialize : Configuration → String) :
    ∀ l : List Configuration,
      (∀ c ∈ l, yamlMarshal c = Except.ok (serialize c)) →
      marshalHashes sha256hex yamlMarshal l =
        Except.ok (l.map fun c => sha256hex (serialize c))
  | [], _ => rfl
  | c :: rest, h => by
      have hc := h c (List.mem_cons_self c rest)
      have hrest := marshalHashes_ok_of_forall sha256hex yamlMarshal
        serialize rest (fun x hx => h x (List.mem_cons_of_mem c hx))
      simp [marshalHashes, hc, hrest]

theorem marshalHashes_ok_shape (sha256hex : String → String)
    (yamlMarshal : Configuration → Except String String) :
    ∀ (l : List Configuration) (hs : List String),
      marshalHashes sha256hex yamlMarshal l = Except.ok hs →
        (∀ c ∈ l, yamlMarshal c =
          Except.ok ((yamlMarshal c).toOption.getD "")) ∧
        hs = l.map
          (fun c => sha256hex ((yamlMarshal c).toOption.getD "")) := by
  intro l
  induction l with
  | nil =>
      intro hs h
      refine ⟨by simp, ?_⟩
      simpa [marshalHashes] using h.symm
  | cons c rest ih =>
      intro hs h
      simp only [marshalHashes] at h
      cases hy : yamlMarshal c with
      | error e => rw [hy] at h; cases h
      | ok d =>
          rw [hy] at h
          cases hr : marshalHashes sha256hex yamlMarshal rest with
          | error e => rw [hr] at h; cases h
          | ok ds =>
              rw [hr] at h
              cases h
              obtain ⟨h1, h2⟩ := ih ds hr
              refine ⟨?_, ?_⟩
              · intro x hx
                rcases List.mem_cons.mp hx with rfl | hx
                · simp [hy, Except.toOption]
                · exact h1 x hx
              · simp [hy, h2, Except.toOption]

theorem marshalHashes_error_of_mem (sha256hex : String → String)
    (yamlMarshal : Configuration → Except String String) :
    ∀ l : List Configuration,
      (∃ c ∈ l, ∃ e, yamlMarshal c = Except.error e) →
      ∃ e', marshalHashes sha256hex yamlMarshal l = Except.error e' := by
  intro l
  induction l with
  | nil => rintro ⟨c, hc, _⟩; cases hc
  | cons c rest ih =>
      rintro ⟨x, hx, e, he⟩
      rcases List.mem_cons.mp hx with rfl | hx
      · exact ⟨"marshaling melange configuration: " ++ e, by
          simp [marshalHashes, he]⟩
      · cases hy : yamlMarshal c with
        | error e' =>
            exact ⟨"marshaling melange configuration: " ++ e', by
              simp [marshalHashes, hy]⟩
        | ok d =>
            obtain ⟨e', he'⟩ := ih ⟨x, hx, e, he⟩
            exact ⟨e', by simp [marshalHashes, hy, he']⟩

/-- C4: `generateDocumentID` returns `"vex-"` followed by the hash of the
colon-join of the lexicographically sorted per-configuration serialization
hashes. -/
theorem generateDocumentID_formula (sha256hex : String → String)
    (yamlMarshal : Configuration → Except String String)
    (serialize : Configuration → String) (configs : List Configuration)
    (h : ∀ c ∈ configs, yamlMarshal c = Except.ok (serialize c)) :
    generateDocumentID sha256hex yamlMarshal configs =
      Except.ok ("vex-" ++ sha256hex (String.intercalate ":"
        (sortStrings (configs.map fun c => sha256hex (serialize c))))) := by
  unfold generateDocumentID
  rw [marshalHashes_ok_of_forall sha256hex yamlMarshal serialize configs h]

/-- Witness for C4 on a one-configuration batch with a concrete hash
function and serializer. -/
theorem generateDocumentID_formula_witness :
    generateDocumentID (fun s => s ++ "#")
        (fun _ => Except.ok "abc") [⟨[], []⟩] =
      Except.ok ("vex-" ++ (fun s => s ++ "#") (String.intercalate ":"
        (sortStrings ([(⟨[], []⟩ : Configuration)].map
          fun _ => (fun s => s ++ "#") "abc")))) :=
  generateDocumentID_formula (fun s => s ++ "#") (fun _ => Except.ok "abc")
    (fun _ => "abc") [⟨[], []⟩] (fun _ _ => rfl)

/-- C5: `generateDocumentID` is deterministic, and on success its result
is invariant under permutation of the configuration batch. -/
theorem generateDocumentID_perm_invariant (sha256hex : String → String)
    (yamlMarshal : Configuration → Except String String)
    (configs configs' : List Configuration)
    (hperm : configs.Perm configs') :
    generateDocumentID sha256hex yamlMarshal configs =
      generateDocumentID sha256hex yamlMarshal configs ∧
    ∀ id, generateDocumentID sha256hex yamlMarshal configs =
        Except.ok id →
      generateDocumentID sha256hex yamlMarshal configs' =
        Except.ok id := by
  refine ⟨rfl, ?_⟩
  intro id hid
  unfold generateDocumentID at hid ⊢
  cases hm : marshalHashes sha256hex yamlMarshal configs with
  | error e => rw [hm] at hid; cases hid
  | ok hs =>
      rw [hm] at hid
      obtain ⟨hall, hshape⟩ :=
        marshalHashes_ok_shape sha256hex yamlMarshal configs hs hm
      have hall' : ∀ c ∈ configs',
          yamlMarshal c = Except.ok ((yamlMarshal c).toOption.getD "") :=
        fun c hc => hall c (hperm.mem_iff.mpr hc)
      have hid' : "vex-" ++
          sha256hex (String.intercalate ":" (sortStrings hs)) = id := by
        simpa using hid
      rw [marshalHashes_ok_of_forall sha256hex yamlMarshal
        (fun c => (yamlMarshal c).toOption.getD "") configs' hall']
      have hsort : sortStrings hs = sortStrings (configs'.map
          (fun c => sha256hex ((yamlMarshal c).toOption.getD ""))) := by
        apply sortStrings_eq_of_perm
        rw [hshape]
        exact hperm.map _
      simp only [Except.ok.injEq]
      rw [← hsort]
      exact hid'

/-- Witness for C5: a two-configuration batch and its swap produce the
same identifier. -/
theorem generateDocumentID_perm_invariant_witness :
    generateDocumentID (fun s => s) (fun _ => Except.ok "d")
        [⟨[("0", ["CVE-1"])], []⟩, ⟨[], []⟩] =
      Except.ok "vex-d:d" :=
  (generateDocumentID_perm_invariant (fun s => s) (fun _ => Except.ok "d")
      [⟨[], []⟩, ⟨[("0", ["CVE-1"])], []⟩]
      [⟨[("0", ["CVE-1"])], []⟩, ⟨[], []⟩]
      (List.Perm.swap (⟨[("0", ["CVE-1"])], []⟩ : Configuration)
        (⟨[], []⟩ : Configuration) [])).2
    "vex-d:d" rfl

/-! ## extractSBOMPurls lemmas -/

theorem extractRefPurls_filter
    (purlFromString : String → Except String PackageURL) (vexCfg : Config) :
    ∀ refs : List ExternalRef,
      extractRefPurls purlFromString vexCfg
        (refs.filter (fun r => r.RefType == "purl")) =
      extractRefPurls purlFromString vexCfg refs
  | [] => rfl
  | r :: rest => by
      by_cases h : r.RefType = "purl"
      · have hb : (r.RefType == "purl") = true := by simp [h]
        simp only [List.filter_cons, hb, if_true, extractRefPurls, h]
        rw [extractRefPurls_filter purlFromString vexCfg rest]
      · have hb : (r.RefType == "purl") = false := by simp [h]
        have hne : r.RefType ≠ "purl" := h
        simp only [List.filter_cons, hb, Bool.false_eq_true, if_false]
        rw [extractRefPurls_filter purlFromString vexCfg rest]
        simp only [extractRefPurls]
        rw [if_pos hne]

theorem extractRefPurls_ok_namespace
    (purlFromString : String → Except String PackageURL) (vexCfg : Config) :
    ∀ (refs : List ExternalRef) (l : List PackageURL),
      extractRefPurls purlFromString vexCfg refs = Except.ok l →
      ∀ p ∈ l, p.Namespace = vexCfg.Distro := by
  intro refs
  induction refs with
  | nil =>
      intro l h p hp
      cases h
      cases hp
  | cons r rest ih =>
      intro l h p hp
      simp only [extractRefPurls] at h
      by_cases hr : r.RefType ≠ "purl"
      · rw [if_pos hr] at h
        exact ih l h p hp
      · rw [if_neg hr] at h
        cases hpf : purlFromString r.Locator with
        | error e => rw [hpf] at h; cases h
        | ok q =>
            rw [hpf] at h
            cases hrest : extractRefPurls purlFromString vexCfg rest with
            | error e => rw [hrest] at h; cases h
            | ok ps =>
                rw [hrest] at h
                simp only [Except.ok.injEq] at h
                by_cases hq : q.Namespace = vexCfg.Distro
                · rw [if_pos hq] at h
                  subst h
                  rcases List.mem_cons.mp hp with rfl | hp'
                  · exact hq
                  · exact ih ps hrest p hp'
                · rw [if_neg hq] at h
                  subst h
                  exact ih ps hrest p hp

theorem extractRefPurls_error
    (purlFromString : String → Except String PackageURL) (vexCfg : Config) :
    ∀ refs : List ExternalRef,
      (∃ r ∈ refs, r.RefType = "purl" ∧
        ∃ e, purlFromString r.Locator = Except.error e) →
      ∃ e', extractRefPurls purlFromString vexCfg refs =
        Except.error e' := by
  intro refs
  induction refs with
  | nil => rintro ⟨r, hr, _⟩; cases hr
  | cons r rest ih =>
      rintro ⟨x, hx, hxt, e, he⟩
      simp only [extractRefPurls]
      by_cases hr : r.RefType ≠ "purl"
      · rw [if_pos hr]
        rcases List.mem_cons.mp hx with rfl | hx'
        · exact absurd hxt hr
        · exact ih ⟨x, hx', hxt, e, he⟩
      · rw [if_neg hr]
        cases hpf : purlFromString r.Locator with
        | error e0 => exact ⟨_, rfl⟩
        | ok q =>
            rcases List.mem_cons.mp hx with rfl | hx'
            · rw [he] at hpf
              cases hpf
            · obtain ⟨e', he'⟩ := ih ⟨x, hx', hxt, e, he⟩
              rw [he']
              exact ⟨e', rfl⟩

theorem extractPackagesPurls_filter
    (purlFromString : String → Except String PackageURL) (vexCfg : Config) :
    ∀ pkgs : List SPDXPackage,
      extractPackagesPurls purlFromString vexCfg
        (pkgs.map fun p =>
          ⟨p.ExternalRefs.filter (fun r => r.RefType == "purl")⟩) =
      extractPackagesPurls purlFromString vexCfg pkgs
  | [] => rfl
  | pkg :: rest => by
      simp only [List.map_cons, extractPackagesPurls]
      rw [extractRefPurls_filter purlFromString vexCfg pkg.ExternalRefs,
        extractPackagesPurls_filter purlFromString vexCfg rest]

theorem extractPackagesPurls_ok_namespace
    (purlFromString : String → Except String PackageURL) (vexCfg : Config) :
    ∀ (pkgs : List SPDXPackage) (l : List PackageURL),
      extractPackagesPurls purlFromString vexCfg pkgs = Except.ok l →
      ∀ p ∈ l, p.Namespace = vexCfg.Distro := by
  intro pkgs
  induction pkgs with
  | nil =>
      intro l h p hp
      cases h
      cases hp
  | cons pkg rest ih =>
      intro l h p hp
      simp only [extractPackagesPurls] at h
      cases h1 : extractRefPurls purlFromString vexCfg pkg.ExternalRefs with
      | error e => rw [h1] at h; cases h
      | ok ps =>
          rw [h1] at h
          cases h2 : extractPackagesPurls purlFromString vexCfg rest with
          | error e => rw [h2] at h; cases h
          | ok qs =>
              rw [h2] at h
              cases h
              rcases List.mem_append.mp hp with hp' | hp'
              · exact extractRefPurls_ok_namespace purlFromString vexCfg
                  pkg.ExternalRefs ps h1 p hp'
              · exact ih qs h2 p hp'

theorem extractPackagesPurls_error
    (purlFromString : String → Except String PackageURL) (vexCfg : Config) :
    ∀ pkgs : List SPDXPackage,
      (∃ pkg ∈ pkgs, ∃ r ∈ pkg.ExternalRefs, r.RefType = "purl" ∧
        ∃ e, purlFromString r.Locator = Except.error e) →
      ∃ e', extractPackagesPurls purlFromString vexCfg pkgs =
        Except.error e' := by
  intro pkgs
  induction pkgs with
  | nil => rintro ⟨pkg, hpkg, _⟩; cases hpkg
  | cons pkg rest ih =>
      rintro ⟨x, hx, r, hr, hrt, e, he⟩
      simp only [extractPackagesPurls]
      rcases List.mem_cons.mp hx with rfl | hx'
      · obtain ⟨e', he'⟩ := extractRefPurls_error purlFromString vexCfg
          x.ExternalRefs ⟨r, hr, hrt, e, he⟩
        rw [he']
        exact ⟨e', rfl⟩
      · cases h1 : extractRefPurls purlFromString vexCfg
            pkg.ExternalRefs with
        | error e0 => exact ⟨e0, rfl⟩
        | ok ps =>
            obtain ⟨e', he'⟩ := ih ⟨x, hx', r, hr, hrt, e, he⟩
            rw [he']
            exact ⟨e', rfl⟩

/-- C8: `extractSBOMPurls` ignores external references whose type is not
`"purl"` (dropping them leaves the result unchanged), keeps only parsed
purls whose namespace is the configured distro, and fails outright — no
partial list — as soon as any `"purl"`-typed locator fails to parse. -/
theorem extractSBOMPurls_behavior
    (purlFromString : String → Except String PackageURL) (vexCfg : Config)
    (sbom : SPDXDocument) :
    (extractSBOMPurls purlFromString vexCfg
      ⟨sbom.Packages.map fun p =>
        ⟨p.ExternalRefs.filter (fun r => r.RefType == "purl")⟩⟩ =
      extractSBOMPurls purlFromString vexCfg sbom) ∧
    (∀ l, extractSBOMPurls purlFromString vexCfg sbom = Except.ok l →
      ∀ p ∈ l, p.Namespace = vexCfg.Distro) ∧
    ((∃ pkg ∈ sbom.Packages, ∃ r ∈ pkg.ExternalRefs, r.RefType = "purl" ∧
        ∃ e, purlFromString r.Locator = Except.error e) →
      ∃ e', extractSBOMPurls purlFromString vexCfg sbom =
        Except.error e') :=
  ⟨extractPackagesPurls_filter purlFromString vexCfg sbom.Packages,
    fun l h p hp => extractPackagesPurls_ok_namespace purlFromString vexCfg
      sbom.Packages l h p hp,
    fun hex => extractPackagesPurls_error purlFromString vexCfg
      sbom.Packages hex⟩

/-- Witness for C8: a non-matching namespace is excluded from a successful
extraction, and a malformed purl locator makes the whole extraction
fail. -/
theorem extractSBOMPurls_behavior_witness :
    ((⟨"apk", "wolfi", "n", "1"⟩ : PackageURL).Namespace = "wolfi") ∧
    (∃ e', extractSBOMPurls
        (fun s => if s = "bad" then Except.error "x"
          else Except.ok ⟨"apk", s, "n", "1"⟩)
        ⟨"wolfi", "a", "r"⟩ ⟨[⟨[⟨"purl", "bad"⟩]⟩]⟩ =
      Except.error e') :=
  ⟨(extractSBOMPurls_behavior
      (fun s => if s = "bad" then Except.error "x"
        else Except.ok ⟨"apk", s, "n", "1"⟩)
      ⟨"wolfi", "a", "r"⟩
      ⟨[⟨[⟨"cpe", "bad"⟩, ⟨"purl", "wolfi"⟩, ⟨"purl", "other"⟩]⟩]⟩).2.1
      [⟨"apk", "wolfi", "n", "1"⟩] rfl ⟨"apk", "wolfi", "n", "1"⟩
      (by decide),
    (extractSBOMPurls_behavior
      (fun s => if s = "bad" then Except.error "x"
        else Except.ok ⟨"apk", s, "n", "1"⟩)
      ⟨"wolfi", "a", "r"⟩ ⟨[⟨[⟨"purl", "bad"⟩]⟩]⟩).2.2
      ⟨⟨[⟨"purl", "bad"⟩]⟩, by decide, ⟨"purl", "bad"⟩, by decide, rfl,
        "x", rfl⟩⟩

/-! ## FromPackageConfiguration lemmas -/

theorem generateDocumentID_error_of_mem (sha256hex : String → String)
    (yamlMarshal : Configuration → Except String String)
    (l : List Configuration)
    (hex : ∃ c ∈ l, ∃ e, yamlMarshal c = Except.error e) :
    ∃ e', generateDocumentID sha256hex yamlMarshal l =
      Except.error e' := by
  obtain ⟨e', he'⟩ := marshalHashes_error_of_mem sha256hex yamlMarshal l hex
  exact ⟨e', by simp [generateDocumentID, he']⟩

/-- C9: `FromPackageConfiguration` surfaces identity-generation failures
and merge failures as a nil document plus an error, returns the merged
document with a nil error otherwise, never returns a document alongside an
error, and a serialization failure of any one configuration aborts the
whole batch. -/
theorem fromPackageConfiguration_error_behavior
    (sha256hex : String → String)
    (yamlMarshal : Configuration → Except String String)
    (packageURLs : Configuration → String → List String)
    (newTimestamp : Nat) (merge : MergeOptions → List VEX → Except String VEX)
    (vexCfg : Config) (buildCfg : List Configuration) :
    (∀ e, generateDocumentID sha256hex yamlMarshal buildCfg =
        Except.error e →
      FromPackageConfiguration sha256hex yamlMarshal packageURLs
          newTimestamp merge vexCfg buildCfg =
        (none, some ("generating doc ID: " ++ e))) ∧
    (∀ id e, generateDocumentID sha256hex yamlMarshal buildCfg =
        Except.ok id →
      merge { DocumentID := id, Author := vexCfg.Author,
              AuthorRole := vexCfg.AuthorRole }
        (subdocs packageURLs newTimestamp vexCfg buildCfg) =
          Except.error e →
      FromPackageConfiguration sha256hex yamlMarshal packageURLs
          newTimestamp merge vexCfg buildCfg =
        (none, some ("merging vex documents: " ++ e))) ∧
    (∀ id doc, generateDocumentID sha256hex yamlMarshal buildCfg =
        Except.ok id →
      merge { DocumentID := id, Author := vexCfg.Author,
              AuthorRole := vexCfg.AuthorRole }
        (subdocs packageURLs newTimestamp vexCfg buildCfg) =
          Except.ok doc →
      FromPackageConfiguration sha256hex yamlMarshal packageURLs
          newTimestamp merge vexCfg buildCfg = (some doc, none)) ∧
    ((FromPackageConfiguration sha256hex yamlMarshal packageURLs
        newTimestamp merge vexCfg buildCfg).1 = none ↔
      (FromPackageConfiguration sha256hex yamlMarshal packageURLs
        newTimestamp merge vexCfg buildCfg).2 ≠ none) ∧
    ((∃ c ∈ buildCfg, ∃ e, yamlMarshal c = Except.error e) →
      (FromPackageConfiguration sha256hex yamlMarshal packageURLs
        newTimestamp merge vexCfg buildCfg).1 = none ∧
      (FromPackageConfiguration sha256hex yamlMarshal packageURLs
        newTimestamp merge vexCfg buildCfg).2 ≠ none) := by
  refine ⟨?_, ?_, ?_, ?_, ?_⟩
  · intro e he
    simp [FromPackageConfiguration, he]
  · intro id e hid hm
    simp [FromPackageConfiguration, hid, hm]
  · intro id doc hid hm
    simp [FromPackageConfiguration, hid, hm]
  · cases hg : generateDocumentID sha256hex yamlMarshal buildCfg with
    | error e => simp [FromPackageConfiguration, hg]
    | ok id =>
        cases hm : merge { DocumentID := id, Author := vexCfg.Author,
                           AuthorRole := vexCfg.AuthorRole }
          (subdocs packageURLs newTimestamp vexCfg buildCfg) with
        | error e => simp [FromPackageConfiguration, hg, hm]
        | ok doc => simp [FromPackageConfiguration, hg, hm]
  · intro hex
    obtain ⟨e', he'⟩ :=
      generateDocumentID_error_of_mem sha256hex yamlMarshal buildCfg hex
    simp [FromPackageConfiguration, he']

/-- Witness for C9: with a merge stub that succeeds, the pipeline returns
the merged document and a nil error. -/
theorem fromPackageConfiguration_error_behavior_witness :
    FromPackageConfiguration (fun s => s) (fun _ => Except.ok "d")
        (fun _ _ => ["p"]) 0 (fun _ _ => Except.ok ⟨0, []⟩)
        ⟨"wolfi", "a", "r"⟩ [⟨[], []⟩] =
      (some (⟨0, []⟩ : VEX), none) :=
  (fromPackageConfiguration_error_behavior (fun s => s)
      (fun _ => Except.ok "d") (fun _ _ => ["p"]) 0
      (fun _ _ => Except.ok ⟨0, []⟩) ⟨"wolfi", "a", "r"⟩
      [⟨[], []⟩]).2.2.1 "vex-d" ⟨0, []⟩ rfl rfl

end Wolfictl
